import Mathlib

/-!
Shallow embedding of `src/ingest.py` (tiger-tracker-python): a single-file
ingestion loop that polls a price API and appends observation rows to a
time-series store.

The database is modelled as explicit committed state: lists of rows for the
`users`, `assets` and `transactions` tables plus schema flags (tables,
unique index, hypertable).  SERIAL columns are modelled by `next…Id`
counters.  The network fetch is injected as a parameter (an `Except` value),
since its behaviour is external to the program; prices are `Rat` (the store
column is NUMERIC).  Python exceptions become `Except` results, and the
except clauses of the driver loop become a branch discriminator on the error
kind, matching `except requests.HTTPError` versus `except Exception`.
-/

namespace TigerTracker

/-- Row of the `users` table: `id SERIAL PRIMARY KEY, name TEXT`. -/
structure UserRow where
  id : Nat
  name : String
deriving DecidableEq, Repr

/-- Row of the `assets` table: `id SERIAL PRIMARY KEY, symbol TEXT, name TEXT`. -/
structure AssetRow where
  id : Nat
  symbol : String
  name : String
deriving DecidableEq, Repr

/-- Row of the `transactions` table:
`id SERIAL, user_id INT, asset_id INT, amount NUMERIC, price_usd NUMERIC, ts TIMESTAMPTZ`. -/
structure TxRow where
  id : Nat
  user_id : Nat
  asset_id : Nat
  amount : Rat
  price_usd : Rat
  ts : Nat
deriving DecidableEq, Repr

/-- Schema-level objects created by `ensure_schema`. -/
structure Schema where
  usersTable : Bool
  assetsTable : Bool
  txTable : Bool
  hypertable : Bool
  assetsSymbolKey : Bool
deriving DecidableEq, Repr

/-- Committed state of the store. -/
structure DB where
  schema : Schema
  users : List UserRow
  assets : List AssetRow
  transactions : List TxRow
  nextUserId : Nat
  nextAssetId : Nat
  nextTxId : Nat
deriving DecidableEq, Repr

/-- A fresh store: no schema objects, no rows, SERIAL counters at 1. -/
def emptyDB : DB :=
  { schema := ⟨false, false, false, false, false⟩
    users := [], assets := [], transactions := []
    nextUserId := 1, nextAssetId := 1, nextTxId := 1 }

/-- Constant `ASSETS`: CoinGecko asset ids mapped to (symbol, name) — the in-code catalog. -/
def ASSETS : List (String × String × String) :=
  [("bitcoin", "BTC", "Bitcoin"), ("ethereum", "ETH", "Ethereum")]

/-- Subscript `ASSETS[cg_id]` as a lookup: `some (symbol, name)` or `none` (Python KeyError). -/
def lookupASSETS (cg : String) : Option (String × String) :=
  (ASSETS.find? (fun t => t.1 = cg)).map (fun t => t.2)

/-- The three `CREATE TABLE IF NOT EXISTS` statements plus
`create_hypertable(..., if_not_exists => TRUE)`: existing objects are left
untouched, so only the schema flags change. -/
def createTables (db : DB) : DB :=
  { db with schema :=
      { usersTable := true, assetsTable := true, txTable := true
        hypertable := true, assetsSymbolKey := db.schema.assetsSymbolKey } }

/-- Whether two asset rows share a symbol (would defeat a unique index). -/
def hasDupSymbols (assets : List AssetRow) : Bool :=
  ¬ assets.Pairwise (fun a b => a.symbol ≠ b.symbol)

/-- Statement `CREATE UNIQUE INDEX assets_symbol_key ON assets(symbol)`: errors if the
index already exists or the table holds duplicate symbols. -/
def createAssetsSymbolKey (db : DB) : Except String DB :=
  if db.schema.assetsSymbolKey then
    Except.error "relation assets_symbol_key already exists"
  else if hasDupSymbols db.assets then
    Except.error "could not create unique index"
  else
    Except.ok { db with schema := { db.schema with assetsSymbolKey := true } }

/-- Function `ensure_schema`: create base tables if absent, declare the hypertable,
then create the unique index on `assets(symbol)` only if the `pg_indexes`
probe finds it missing. -/
def ensure_schema (db : DB) : Except String DB :=
  let db1 := createTables db
  if db1.schema.assetsSymbolKey then Except.ok db1
  else createAssetsSymbolKey db1

/-- Statement `INSERT INTO users (name) VALUES (%s) ON CONFLICT DO NOTHING`.  The
`users` table has no uniqueness constraint besides the SERIAL primary key
(which never collides), so the conflict clause never fires and every run
inserts a fresh row. -/
def insertUser (db : DB) (name : String) : DB :=
  { db with users := db.users ++ [⟨db.nextUserId, name⟩]
            nextUserId := db.nextUserId + 1 }

/-- Statement `INSERT INTO assets (symbol, name) VALUES (%s, %s)
ON CONFLICT (symbol) DO NOTHING`: a row is added only when no existing row
carries the symbol. -/
def insertAsset (db : DB) (symbol name : String) : DB :=
  if db.assets.any (fun a => a.symbol = symbol) then db
  else { db with assets := db.assets ++ [⟨db.nextAssetId, symbol, name⟩]
                 nextAssetId := db.nextAssetId + 1 }

/-- Function `seed_reference_data`: insert the demo user Sarah, then upsert each
configured asset. -/
def seed_reference_data (db : DB) : DB :=
  (ASSETS.foldl (fun d t => insertAsset d t.2.1 t.2.2) (insertUser db "Sarah"))

/-- Function `get_asset_id_map`: `SELECT id, symbol FROM assets` turned into the dict
`{sym: aid for aid, sym in rows}` — later rows overwrite earlier ones. -/
def get_asset_id_map (db : DB) : List (String × Nat) :=
  db.assets.map (fun a => (a.symbol, a.id))

/-- Lookup in a Python dict built by comprehension: the last binding of a key
wins; `none` is a KeyError. -/
def dictLookup (m : List (String × Nat)) (k : String) : Option Nat :=
  (m.reverse.find? (fun p => p.1 = k)).map (fun p => p.2)

/-- Failure modes of `fetch_prices`: `raise_for_status()` turns a non-2xx
status into `requests.HTTPError`; a timeout raises `requests.Timeout`,
which is NOT a subclass of `HTTPError`. -/
inductive FetchErr where
  | httpStatus (code : Nat)
  | timeout
deriving DecidableEq, Repr

/-- The successful payload of `fetch_prices`, with the `"usd"` field already
projected: ordered `(cg_id, price)` pairs as `r.json().items()` yields them. -/
abbrev FetchData := List (String × Rat)

/-- Exceptions that can escape one body of `ingest_once` into the driver
handlers of the loop. -/
inductive CycleErr where
  | fetch (e : FetchErr)
  | keyError (k : String)
  | persistFail
deriving DecidableEq, Repr

/-- Which cycle errors are `requests.HTTPError` instances: only the
`raise_for_status` error.  A timeout, a KeyError and a database failure are
not. -/
def CycleErr.isHTTPError : CycleErr → Bool
  | .fetch (.httpStatus _) => true
  | _ => false

/-- A `(user_id, asset_id, amount, price, ts)` tuple appended to `rows` in
`ingest_once` before the batch insert: `(1, asset_id, 1, price, ts)`. -/
structure PendingRow where
  user_id : Nat
  asset_id : Nat
  amount : Rat
  price_usd : Rat
  ts : Nat
deriving DecidableEq, Repr

/-- The row-building loop of `ingest_once`: for each fetched pair, resolve
`ASSETS[cg_id][0]` then `asset_id_by_symbol[symbol]` (either missing key is
a KeyError that aborts the cycle before any write). -/
def buildRows (db : DB) (ts : Nat) : List (String × Rat) → Except CycleErr (List PendingRow)
  | [] => Except.ok []
  | (cg, price) :: rest =>
    match lookupASSETS cg with
    | none => Except.error (CycleErr.keyError cg)
    | some (symbol, _) =>
      match dictLookup (get_asset_id_map db) symbol with
      | none => Except.error (CycleErr.keyError symbol)
      | some aid =>
        match buildRows db ts rest with
        | Except.error e => Except.error e
        | Except.ok rs => Except.ok (⟨1, aid, 1, price, ts⟩ :: rs)

/-- The batch `execute_values` insert: each pending row becomes a committed
`transactions` row with the next SERIAL id. -/
def appendTx : DB → List PendingRow → DB
  | db, [] => db
  | db, r :: rs =>
      appendTx
        { db with
            transactions :=
              db.transactions ++ [⟨db.nextTxId, r.user_id, r.asset_id, r.amount, r.price_usd, r.ts⟩]
            nextTxId := db.nextTxId + 1 } rs

/-- Function `ingest_once`: fetch prices, take one timestamp, build one row per
returned asset, then persist all rows as one batch and commit.  `fetched`
injects the network result; `persistOk = false` injects a persistence
failure at the `execute_values`/`commit` step, in which case nothing is
committed (the pending insert stays in the open transaction). -/
def ingest_once (db : DB) (fetched : Except FetchErr FetchData) (ts : Nat)
    (persistOk : Bool) : Except CycleErr DB :=
  match fetched with
  | Except.error e => Except.error (CycleErr.fetch e)
  | Except.ok data =>
    match buildRows db ts data with
    | Except.error e => Except.error e
    | Except.ok rows =>
      if persistOk then Except.ok (appendTx db rows)
      else Except.error CycleErr.persistFail

/-- Which `except` clause of the driver loop handled the cycle (or none). -/
inductive Branch where
  | ok
  | httpSkip
  | rollbackRecover
deriving DecidableEq, Repr

/-- Call `conn.rollback()`: discards the open (uncommitted) transaction; the
committed state is untouched. -/
def rollback (db : DB) : DB := db

/-- One iteration of the `while True` body: run `ingest_once`; on
`requests.HTTPError` log and skip (no rollback); on any other exception log
and roll back.  Every outcome falls through to `time.sleep` and the next
iteration. -/
def loop_step (db : DB) (fetched : Except FetchErr FetchData) (ts : Nat)
    (persistOk : Bool) : DB × Branch :=
  match ingest_once db fetched ts persistOk with
  | Except.ok db2 => (db2, Branch.ok)
  | Except.error e =>
    if e.isHTTPError then (db, Branch.httpSkip)
    else (rollback db, Branch.rollbackRecover)

/-- The external inputs of one loop iteration. -/
structure CycleInput where
  fetched : Except FetchErr FetchData
  ts : Nat
  persistOk : Bool

/-- The driver loop over a finite trace of cycle inputs: totality of this
function is the loop never terminating on a cycle error. -/
def run_cycles (db : DB) : List CycleInput → DB
  | [] => db
  | c :: cs => run_cycles (loop_step db c.fetched c.ts c.persistOk).1 cs

/-- Startup failures of `main` (and of the module-level env check). -/
inductive StartupErr where
  | missingEnv
  | connectFail
  | schemaError
deriving DecidableEq, Repr

/-- Lines 11–13: `PGURL = os.getenv(...)`; `if not PGURL: raise RuntimeError`.
the Python not operator is also true on None and on the empty string. -/
def pgurlCheck (env : Option String) : Except StartupErr String :=
  match env with
  | none => Except.error StartupErr.missingEnv
  | some s => if s = "" then Except.error StartupErr.missingEnv else Except.ok s

/-- Function `main` plus the module-level env check: check the env var, connect,
bootstrap the schema, seed, then run the loop.  Returns the committed store
state when the process ends, and the startup error if it died before the
loop. -/
def main (env : Option String) (connectOk : Bool) (db : DB)
    (cycles : List CycleInput) : DB × Option StartupErr :=
  match pgurlCheck env with
  | Except.error e => (db, some e)
  | Except.ok _ =>
    if connectOk then
      match ensure_schema db with
      | Except.error _ => (db, some StartupErr.schemaError)
      | Except.ok db1 =>
        (run_cycles (seed_reference_data db1) cycles, none)
    else (db, some StartupErr.connectFail)

/-- The store state after a successful bootstrap from a fresh store. -/
def bootedDB : DB := (ensure_schema emptyDB).toOption.getD emptyDB

/-- The store state after bootstrap and seeding from a fresh store, the
start state of the steady-state loop. -/
def seededDB : DB := seed_reference_data bootedDB

/-- Every state transition the program can make on the store: a successful
schema bootstrap, a seeding pass, or one driver-loop iteration (with any
fetch outcome and any persistence outcome). -/
inductive Step : DB → DB → Prop where
  | bootstrap (db db2 : DB) : ensure_schema db = Except.ok db2 → Step db db2
  | seed (db : DB) : Step db (seed_reference_data db)
  | cycle (db : DB) (f : Except FetchErr FetchData) (ts : Nat) (p : Bool) :
      Step db (loop_step db f ts p).1

/-- States reachable after schema bootstrap and seeding on a fresh store,
closed under driver-loop iterations. -/
inductive Reach : DB → Prop where
  | init (db : DB) : ensure_schema emptyDB = Except.ok db →
      Reach (seed_reference_data db)
  | cycle (db : DB) (f : Except FetchErr FetchData) (ts : Nat) (p : Bool) :
      Reach db → Reach (loop_step db f ts p).1

/-- A fetched pair whose asset id is missing from the in-code catalog, or
whose symbol is missing from the `assets` table: either lookup in
`ingest_once` raises a KeyError. -/
def badKey (db : DB) (q : String × Rat) : Prop :=
  lookupASSETS q.1 = none ∨
    ∃ s n, lookupASSETS q.1 = some (s, n) ∧
      dictLookup (get_asset_id_map db) s = none

/-! Helper lemmas about the store operations. -/

theorem appendTx_users (rows : List PendingRow) :
    ∀ db : DB, (appendTx db rows).users = db.users := by
  induction rows with
  | nil => intro db; rfl
  | cons r rs ih => intro db; exact ih _

theorem appendTx_assets (rows : List PendingRow) :
    ∀ db : DB, (appendTx db rows).assets = db.assets := by
  induction rows with
  | nil => intro db; rfl
  | cons r rs ih => intro db; exact ih _

theorem appendTx_extends (rows : List PendingRow) :
    ∀ db : DB, db.transactions <+: (appendTx db rows).transactions := by
  induction rows with
  | nil => intro db; exact ⟨[], List.append_nil _⟩
  | cons r rs ih =>
    intro db
    have h1 : db.transactions <+:
        (db.transactions ++
          [⟨db.nextTxId, r.user_id, r.asset_id, r.amount, r.price_usd, r.ts⟩]) :=
      ⟨_, rfl⟩
    exact List.IsPrefix.trans h1
      (ih { db with
              transactions := db.transactions ++
                [⟨db.nextTxId, r.user_id, r.asset_id, r.amount, r.price_usd, r.ts⟩]
              nextTxId := db.nextTxId + 1 })

theorem appendTx_mem (rows : List PendingRow) :
    ∀ (db : DB), ∀ t ∈ (appendTx db rows).transactions,
      t ∈ db.transactions ∨
        ∃ r ∈ rows, t.user_id = r.user_id ∧ t.asset_id = r.asset_id := by
  induction rows with
  | nil => intro db t ht; exact Or.inl ht
  | cons r rs ih =>
    intro db t ht
    rcases ih _ t ht with h | ⟨r2, hr2, h1, h2⟩
    · rw [List.mem_append] at h
      rcases h with h | h
      · exact Or.inl h
      · rw [List.mem_singleton] at h
        subst h
        exact Or.inr ⟨r, List.mem_cons_self _ _, rfl, rfl⟩
    · exact Or.inr ⟨r2, List.mem_cons_of_mem _ hr2, h1, h2⟩

theorem dictLookup_mem_assets (db : DB) (sym : String) (aid : Nat)
    (h : dictLookup (get_asset_id_map db) sym = some aid) :
    ∃ a ∈ db.assets, a.id = aid := by
  unfold dictLookup get_asset_id_map at h
  cases hf : (((db.assets.map (fun a => (a.symbol, a.id))).reverse).find?
      (fun p => p.1 = sym)) with
  | none => rw [hf] at h; exact Option.noConfusion h
  | some p =>
    rw [hf] at h
    injection h with h
    have hmem := List.mem_of_find?_eq_some hf
    rw [List.mem_reverse, List.mem_map] at hmem
    obtain ⟨a, ha, hpa⟩ := hmem
    refine ⟨a, ha, ?_⟩
    rw [← h, ← hpa]

theorem buildRows_ok_mem (db : DB) (ts : Nat) :
    ∀ (data : List (String × Rat)) (rows : List PendingRow),
      buildRows db ts data = Except.ok rows →
      ∀ r ∈ rows, r.user_id = 1 ∧ ∃ a ∈ db.assets, a.id = r.asset_id := by
  intro data
  induction data with
  | nil =>
    intro rows h r hr
    unfold buildRows at h
    injection h with h
    subst h
    exact absurd hr (List.not_mem_nil r)
  | cons q rest ih =>
    intro rows h r hr
    obtain ⟨cg, price⟩ := q
    unfold buildRows at h
    cases hl : lookupASSETS cg with
    | none => simp only [hl] at h; exact Except.noConfusion h
    | some sn =>
      obtain ⟨sym, nm⟩ := sn
      simp only [hl] at h
      cases hd : dictLookup (get_asset_id_map db) sym with
      | none => simp only [hd] at h; exact Except.noConfusion h
      | some aid =>
        simp only [hd] at h
        cases hb : buildRows db ts rest with
        | error e => simp only [hb] at h; exact Except.noConfusion h
        | ok rs =>
          simp only [hb] at h
          injection h with h
          subst h
          rcases List.mem_cons.mp hr with hr | hr
          · subst hr
            exact ⟨rfl, dictLookup_mem_assets db sym aid hd⟩
          · exact ih rs hb r hr

theorem ingest_once_ok_char (db : DB) (f : Except FetchErr FetchData) (ts : Nat)
    (p : Bool) (db2 : DB) (h : ingest_once db f ts p = Except.ok db2) :
    ∃ data rows, f = Except.ok data ∧ buildRows db ts data = Except.ok rows ∧
      db2 = appendTx db rows := by
  unfold ingest_once at h
  cases f with
  | error e => exact Except.noConfusion h
  | ok data =>
    cases hb : buildRows db ts data with
    | error e => simp only [hb] at h; exact Except.noConfusion h
    | ok rows =>
      simp only [hb] at h
      cases p with
      | false => exact Except.noConfusion h
      | true =>
        injection h with h
        exact ⟨data, rows, rfl, hb, h.symm⟩

theorem loop_step_fst_char (db : DB) (f : Except FetchErr FetchData) (ts : Nat)
    (p : Bool) :
    (loop_step db f ts p).1 = db ∨
      ∃ rows, (∀ r ∈ rows, r.user_id = 1 ∧ ∃ a ∈ db.assets, a.id = r.asset_id) ∧
        (loop_step db f ts p).1 = appendTx db rows := by
  unfold loop_step
  cases hi : ingest_once db f ts p with
  | error e =>
    left
    cases he : e.isHTTPError <;> simp [he, rollback]
  | ok db2 =>
    right
    obtain ⟨data, rows, _, hb, hdb2⟩ := ingest_once_ok_char db f ts p db2 hi
    exact ⟨rows, buildRows_ok_mem db ts data rows hb, hdb2⟩

theorem loop_step_users (db : DB) (f : Except FetchErr FetchData) (ts : Nat)
    (p : Bool) : (loop_step db f ts p).1.users = db.users := by
  rcases loop_step_fst_char db f ts p with h | ⟨rows, _, h⟩
  · rw [h]
  · rw [h]; exact appendTx_users rows db

theorem loop_step_assets (db : DB) (f : Except FetchErr FetchData) (ts : Nat)
    (p : Bool) : (loop_step db f ts p).1.assets = db.assets := by
  rcases loop_step_fst_char db f ts p with h | ⟨rows, _, h⟩
  · rw [h]
  · rw [h]; exact appendTx_assets rows db

theorem ensure_schema_transactions (db db2 : DB)
    (h : ensure_schema db = Except.ok db2) : db2.transactions = db.transactions := by
  unfold ensure_schema createTables createAssetsSymbolKey at h
  cases hk : db.schema.assetsSymbolKey with
  | true =>
    simp only [hk] at h
    injection h with h
    subst h
    rfl
  | false =>
    simp only [hk] at h
    cases hdup : hasDupSymbols db.assets with
    | true => simp only [hdup] at h; exact Except.noConfusion h
    | false =>
      simp only [hdup] at h
      injection h with h
      subst h
      rfl

theorem insertAsset_transactions (db : DB) (s n : String) :
    (insertAsset db s n).transactions = db.transactions := by
  unfold insertAsset
  split <;> rfl

theorem foldl_insertAsset_transactions (l : List (String × String × String)) :
    ∀ db : DB,
      (l.foldl (fun d t => insertAsset d t.2.1 t.2.2) db).transactions =
        db.transactions := by
  induction l with
  | nil => intro db; rfl
  | cons t ts ih =>
    intro db
    rw [List.foldl_cons, ih, insertAsset_transactions]

theorem seed_transactions (db : DB) :
    (seed_reference_data db).transactions = db.transactions := by
  unfold seed_reference_data
  rw [foldl_insertAsset_transactions]
  rfl

theorem buildRows_keyError (db : DB) (ts : Nat) :
    ∀ data : List (String × Rat), (∃ q ∈ data, badKey db q) →
      ∃ k, buildRows db ts data = Except.error (CycleErr.keyError k) := by
  intro data
  induction data with
  | nil => rintro ⟨q, hq, _⟩; exact absurd hq (List.not_mem_nil q)
  | cons q rest ih =>
    rintro ⟨q2, hq2, hbad⟩
    obtain ⟨cg, price⟩ := q
    cases hl : lookupASSETS cg with
    | none =>
      exact ⟨cg, by simp only [buildRows, hl]⟩
    | some sn =>
      obtain ⟨sym, nm⟩ := sn
      cases hd : dictLookup (get_asset_id_map db) sym with
      | none =>
        exact ⟨sym, by simp only [buildRows, hl, hd]⟩
      | some aid =>
        have hq2rest : q2 ∈ rest := by
          rcases List.mem_cons.mp hq2 with hq2 | hq2
          · exfalso
            subst hq2
            simp only [badKey] at hbad
            rcases hbad with hbad | ⟨s2, n2, hs2, hd2⟩
            · rw [hl] at hbad; exact Option.noConfusion hbad
            · rw [hl] at hs2
              injection hs2 with hs2
              have hse : sym = s2 := congrArg Prod.fst hs2
              rw [← hse] at hd2
              exact Option.noConfusion (hd.symm.trans hd2)
          · exact hq2
        obtain ⟨k, hk⟩ := ih ⟨q2, hq2rest, hbad⟩
        exact ⟨k, by simp only [buildRows, hl, hd, hk]⟩

/-! Claim theorems. -/

/-- Claim C1: on the fetch response bitcoin 67000, ethereum 3500 with BTC and
ETH pre-seeded, `ingest_once` appends exactly two observation rows in one
batch, each with amount 1 and the matching usd price, both carrying the
single timestamp taken at the start of the cycle. -/
theorem c1_ingest_appends_two_observations :
    ingest_once seededDB
        (Except.ok [("bitcoin", (67000 : Rat)), ("ethereum", (3500 : Rat))]) 42 true =
      Except.ok
        { seededDB with
            transactions := seededDB.transactions ++
              [⟨1, 1, 1, 1, 67000, 42⟩, ⟨2, 1, 2, 1, 3500, 42⟩]
            nextTxId := 3 } := by
  rfl

/-- Claim C2 (refuted, code bug): running `seed_reference_data` a second time
on the state reached after bootstrap and one seeding pass leaves TWO actor
rows named Sarah in the `users` table, because `users` carries no uniqueness
constraint for ON CONFLICT DO NOTHING to fire on; the `assets` table does
stay at one row per configured symbol. -/
theorem c2_seed_twice_duplicates_user :
    (seed_reference_data seededDB).users = [⟨1, "Sarah"⟩, ⟨2, "Sarah"⟩] ∧
    (seed_reference_data seededDB).users.length = 2 ∧
    (seed_reference_data seededDB).assets =
      [⟨1, "BTC", "Bitcoin"⟩, ⟨2, "ETH", "Ethereum"⟩] := by
  decide

/-- Claim C3: when the persistence step fails after a successful fetch (and
successful row building), the cycle raises the persistence error, the
rollback branch leaves the committed `transactions` table unchanged, and the
driver loop proceeds to the next cycle. -/
theorem c3_persist_failure_rolls_back (db : DB) (data : FetchData) (ts : Nat)
    (rows : List PendingRow) (cs : List CycleInput)
    (h : buildRows db ts data = Except.ok rows) :
    ingest_once db (Except.ok data) ts false = Except.error CycleErr.persistFail ∧
    loop_step db (Except.ok data) ts false = (db, Branch.rollbackRecover) ∧
    run_cycles db (⟨Except.ok data, ts, false⟩ :: cs) = run_cycles db cs := by
  have hi : ingest_once db (Except.ok data) ts false =
      Except.error CycleErr.persistFail := by
    unfold ingest_once
    simp only [h]
    rfl
  have hl : loop_step db (Except.ok data) ts false = (db, Branch.rollbackRecover) := by
    unfold loop_step
    simp only [hi]
    rfl
  refine ⟨hi, hl, ?_⟩
  simp only [run_cycles, hl]

/-- Witness for C3 at a concrete state and fetch response. -/
theorem c3_persist_failure_rolls_back_witness :
    ingest_once seededDB (Except.ok [("bitcoin", (100 : Rat))]) 5 false =
      Except.error CycleErr.persistFail ∧
    loop_step seededDB (Except.ok [("bitcoin", (100 : Rat))]) 5 false =
      (seededDB, Branch.rollbackRecover) ∧
    run_cycles seededDB (⟨Except.ok [("bitcoin", (100 : Rat))], 5, false⟩ :: []) =
      run_cycles seededDB [] :=
  c3_persist_failure_rolls_back seededDB [("bitcoin", (100 : Rat))] 5
    [⟨1, 1, 1, 100, 5⟩] [] (by rfl)

/-- Claim C4: when the price fetch fails (non-2xx status or timeout), the
cycle adds no observation rows and the driver loop proceeds to the next
interval with the store unchanged. -/
theorem c4_fetch_failure_adds_no_rows (db : DB) (e : FetchErr) (ts : Nat)
    (p : Bool) (cs : List CycleInput) :
    (loop_step db (Except.error e) ts p).1.transactions = db.transactions ∧
    run_cycles db (⟨Except.error e, ts, p⟩ :: cs) = run_cycles db cs := by
  have hstep : (loop_step db (Except.error e) ts p).1 = db := by
    cases e <;> rfl
  refine ⟨by rw [hstep], ?_⟩
  simp only [run_cycles, hstep]

/-- Claim C5 as stated is false: a fetch timeout is not a
`requests.HTTPError`, so at this concrete input the driver loop takes the
generic rollback branch, not the network-error skip branch. -/
theorem c5_timeout_takes_rollback_branch :
    (loop_step seededDB (Except.error FetchErr.timeout) 0 true).2 =
      Branch.rollbackRecover ∧
    Branch.rollbackRecover ≠ Branch.httpSkip := by
  decide

/-- Claim C5 (amended): a non-2xx status raises an HTTP error kind that the
driver loop handles in the network-error branch, skipping the cycle without
rollback; a timeout raises a distinct timeout error kind that takes the
generic rollback branch; in both cases the store is unchanged and the loop
continues to the next cycle. -/
theorem c5_error_branch_classification (db : DB) (code ts : Nat) (p : Bool)
    (cs : List CycleInput) :
    loop_step db (Except.error (FetchErr.httpStatus code)) ts p =
      (db, Branch.httpSkip) ∧
    loop_step db (Except.error FetchErr.timeout) ts p =
      (db, Branch.rollbackRecover) ∧
    run_cycles db (⟨Except.error (FetchErr.httpStatus code), ts, p⟩ :: cs) =
      run_cycles db cs ∧
    run_cycles db (⟨Except.error FetchErr.timeout, ts, p⟩ :: cs) =
      run_cycles db cs := by
  refine ⟨rfl, rfl, ?_, ?_⟩ <;> simp only [run_cycles] <;> rfl

theorem step_extends (dbA dbB : DB) (h : Step dbA dbB) :
    dbA.transactions <+: dbB.transactions := by
  cases h with
  | bootstrap db2 hb =>
    rw [ensure_schema_transactions dbA dbB hb]
  | seed =>
    rw [seed_transactions]
  | cycle f ts p =>
    rcases loop_step_fst_char dbA f ts p with h2 | ⟨rows, _, h2⟩
    · rw [h2]
    · rw [h2]; exact appendTx_extends rows dbA

/-- Claim C6: across arbitrarily many program steps (bootstrap, seeding,
driver-loop cycles with any outcome), the committed `transactions` table of
an earlier state is a prefix of the later one: rows are only appended, never
mutated or deleted. -/
theorem c6_observations_append_only (dbA dbB : DB)
    (h : Relation.ReflTransGen Step dbA dbB) :
    dbA.transactions <+: dbB.transactions := by
  induction h with
  | refl => exact ⟨[], List.append_nil _⟩
  | tail hab hbc ih => exact List.IsPrefix.trans ih (step_extends _ _ hbc)

/-- Witness for C6 on a concrete one-cycle run. -/
theorem c6_observations_append_only_witness :
    seededDB.transactions <+:
      (loop_step seededDB (Except.ok [("bitcoin", (1 : Rat))]) 0 true).1.transactions :=
  c6_observations_append_only seededDB
    (loop_step seededDB (Except.ok [("bitcoin", (1 : Rat))]) 0 true).1
    (Relation.ReflTransGen.single
      (Step.cycle seededDB (Except.ok [("bitcoin", (1 : Rat))]) 0 true))

theorem reach_inv (db : DB) (h : Reach db) :
    (∃ u ∈ db.users, u.id = 1) ∧
    db.assets.Pairwise (fun a b => a.symbol ≠ b.symbol) ∧
    ∀ t ∈ db.transactions,
      (∃ u ∈ db.users, u.id = t.user_id) ∧ ∃ a ∈ db.assets, a.id = t.asset_id := by
  induction h with
  | init db0 h0 =>
    have h2 : ensure_schema emptyDB = Except.ok bootedDB := rfl
    rw [h2] at h0
    injection h0 with h0
    subst h0
    decide
  | cycle db0 f ts p hr ih =>
    obtain ⟨hu1, hpw, href⟩ := ih
    refine ⟨?_, ?_, ?_⟩
    · rw [loop_step_users db0 f ts p]; exact hu1
    · rw [loop_step_assets db0 f ts p]; exact hpw
    · rcases loop_step_fst_char db0 f ts p with hc | ⟨rows, hrows, hc⟩
      · rw [hc]; exact href
      · rw [hc, appendTx_users rows db0, appendTx_assets rows db0]
        intro t ht
        rcases appendTx_mem rows db0 t ht with hmem | ⟨r, hrmem, hu, ha⟩
        · exact href t hmem
        · constructor
          · obtain ⟨u, humem, hid⟩ := hu1
            refine ⟨u, humem, ?_⟩
            rw [hu, (hrows r hrmem).1]
            exact hid
          · obtain ⟨a2, hamem, haid⟩ := (hrows r hrmem).2
            refine ⟨a2, hamem, ?_⟩
            rw [ha]
            exact haid

/-- Claim C7: in every state reachable after schema bootstrap and seeding,
asset symbols are pairwise distinct, and every committed observation row
references an existing user row and an existing asset row. -/
theorem c7_reference_integrity (db : DB) (h : Reach db) :
    db.assets.Pairwise (fun a b => a.symbol ≠ b.symbol) ∧
    ∀ t ∈ db.transactions,
      (∃ u ∈ db.users, u.id = t.user_id) ∧ ∃ a ∈ db.assets, a.id = t.asset_id :=
  ⟨(reach_inv db h).2.1, (reach_inv db h).2.2⟩

/-- Witness for C7 at the freshly seeded state. -/
theorem c7_reference_integrity_witness :
    seededDB.assets.Pairwise (fun a b => a.symbol ≠ b.symbol) ∧
    ∀ t ∈ seededDB.transactions,
      (∃ u ∈ seededDB.users, u.id = t.user_id) ∧
        ∃ a ∈ seededDB.assets, a.id = t.asset_id :=
  c7_reference_integrity seededDB (Reach.init bootedDB rfl)

/-- Claim C8: schema bootstrap is idempotent — a second run on the state the
first run produced succeeds and returns that state unchanged (same tables,
index and hypertable configuration). -/
theorem c8_bootstrap_idempotent (db db2 : DB)
    (h : ensure_schema db = Except.ok db2) :
    ensure_schema db2 = Except.ok db2 := by
  unfold ensure_schema createTables createAssetsSymbolKey at h
  cases hk : db.schema.assetsSymbolKey with
  | true =>
    simp only [hk] at h
    injection h with h
    subst h
    rfl
  | false =>
    simp only [hk] at h
    cases hdup : hasDupSymbols db.assets with
    | true => simp only [hdup] at h; exact Except.noConfusion h
    | false =>
      simp only [hdup] at h
      injection h with h
      subst h
      rfl

/-- Witness for C8 bootstrapping a fresh store twice. -/
theorem c8_bootstrap_idempotent_witness :
    ensure_schema bootedDB = Except.ok bootedDB :=
  c8_bootstrap_idempotent emptyDB bootedDB rfl

/-- Claim C9: a missing (or empty) store-URL environment variable, or a
failed store connection, ends the process before the ingestion loop with the
store untouched: no schema, seed or observation writes. -/
theorem c9_startup_failure_is_fatal (env : Option String) (connectOk : Bool)
    (db : DB) (cycles : List CycleInput)
    (h : env = none ∨ env = some "" ∨ connectOk = false) :
    ∃ e, main env connectOk db cycles = (db, some e) := by
  rcases h with h | h | h
  · subst h; exact ⟨StartupErr.missingEnv, rfl⟩
  · subst h; exact ⟨StartupErr.missingEnv, rfl⟩
  · subst h
    cases env with
    | none => exact ⟨StartupErr.missingEnv, rfl⟩
    | some s =>
      by_cases hs : s = ""
      · subst hs; exact ⟨StartupErr.missingEnv, rfl⟩
      · exact ⟨StartupErr.connectFail, by simp [main, pgurlCheck, hs]⟩

/-- Witness for C9 with the environment variable absent. -/
theorem c9_startup_failure_is_fatal_witness :
    ∃ e, main none true emptyDB [] = (emptyDB, some e) :=
  c9_startup_failure_is_fatal none true emptyDB [] (Or.inl rfl)

/-- Claim C10: when the fetch response holds an asset id outside the
configured catalog, or one whose symbol is absent from the `assets` table,
the cycle raises a KeyError before any database write, commits zero
observation rows, is handled by the generic error branch, and the loop
continues. -/
theorem c10_unknown_asset_aborts_cycle (db : DB) (data : FetchData) (ts : Nat)
    (p : Bool) (cs : List CycleInput) (h : ∃ q ∈ data, badKey db q) :
    (∃ k, ingest_once db (Except.ok data) ts p =
        Except.error (CycleErr.keyError k)) ∧
    loop_step db (Except.ok data) ts p = (db, Branch.rollbackRecover) ∧
    run_cycles db (⟨Except.ok data, ts, p⟩ :: cs) = run_cycles db cs := by
  obtain ⟨k, hk⟩ := buildRows_keyError db ts data h
  have hi : ingest_once db (Except.ok data) ts p =
      Except.error (CycleErr.keyError k) := by
    unfold ingest_once
    simp only [hk]
  have hl : loop_step db (Except.ok data) ts p = (db, Branch.rollbackRecover) := by
    unfold loop_step
    simp only [hi]
    rfl
  refine ⟨⟨k, hi⟩, hl, ?_⟩
  simp only [run_cycles, hl]

/-- Witness for C10 on a fetch response naming an unconfigured asset. -/
theorem c10_unknown_asset_aborts_cycle_witness :
    (∃ k, ingest_once seededDB (Except.ok [("solana", (150 : Rat))]) 7 true =
        Except.error (CycleErr.keyError k)) ∧
    loop_step seededDB (Except.ok [("solana", (150 : Rat))]) 7 true =
      (seededDB, Branch.rollbackRecover) ∧
    run_cycles seededDB (⟨Except.ok [("solana", (150 : Rat))], 7, true⟩ :: []) =
      run_cycles seededDB [] :=
  c10_unknown_asset_aborts_cycle seededDB [("solana", (150 : Rat))] 7 true []
    ⟨("solana", (150 : Rat)), List.mem_cons_self _ _, Or.inl rfl⟩

end TigerTracker
